import Mathlib

/-
  Verification development for the dam-viz visualization pipeline.

  The Python sources are shallowly embedded:
  * float arithmetic is modelled as exact arithmetic over ℝ (where a cube
    root appears) or over ℚ (everywhere else);
  * Python exceptions are modelled with `Except`;
  * numpy float arrays with possible NaN/Inf entries are modelled as lists
    over an extended value type `FVal`.
-/

namespace DamViz

/-! ## GridResampler — damvis_utils.resample_to_uniform_grid

The mesh bounding box is the 6-tuple `bounds`; the code reads it as
`(xmin, xmax, ymin, ymax, zmin, zmax)`. -/

structure Bounds where
  xmin : ℝ
  xmax : ℝ
  ymin : ℝ
  ymax : ℝ
  zmin : ℝ
  zmax : ℝ

/-- A uniform grid as produced by `pv.ImageData(dimensions, spacing, origin)`:
integer dimensions, float spacing and origin. -/
structure UniformGrid where
  nx : ℤ
  ny : ℤ
  nz : ℤ
  sx : ℝ
  sy : ℝ
  sz : ℝ
  ox : ℝ
  oy : ℝ
  oz : ℝ

/-- Python exceptions raised along the resampling path. -/
inductive PyError where
  | zeroDivisionError
  | typeError
  | valueError
deriving DecidableEq

/-- extents[0] = bounds[1] - bounds[0] -/
def extentX (b : Bounds) : ℝ := b.xmax - b.xmin

/-- extents[1] = bounds[3] - bounds[2] -/
def extentY (b : Bounds) : ℝ := b.ymax - b.ymin

/-- extents[2] = bounds[5] - bounds[4] -/
def extentZ (b : Bounds) : ℝ := b.zmax - b.zmin

/-- volume = extents[0] * extents[1] * extents[2] -/
def boxVolume (b : Bounds) : ℝ := extentX b * extentY b * extentZ b

/-- cell_size = (volume / target_cells) ** (1/3) -/
noncomputable def cell_size (b : Bounds) (target : ℝ) : ℝ :=
  Real.rpow (boxVolume b / target) (1 / 3)

/-- dimensions[0] = int(np.ceil(extents[0] / cell_size)) + 1 -/
noncomputable def dimX (b : Bounds) (target : ℝ) : ℤ :=
  ⌈extentX b / cell_size b target⌉ + 1

/-- dimensions[1] = int(np.ceil(extents[1] / cell_size)) + 1 -/
noncomputable def dimY (b : Bounds) (target : ℝ) : ℤ :=
  ⌈extentY b / cell_size b target⌉ + 1

/-- dimensions[2] = int(np.ceil(extents[2] / cell_size)) + 1 -/
noncomputable def dimZ (b : Bounds) (target : ℝ) : ℤ :=
  ⌈extentZ b / cell_size b target⌉ + 1

/-- spacing[0] = extents[0] / (dimensions[0] - 1) -/
noncomputable def spacingX (b : Bounds) (target : ℝ) : ℝ :=
  extentX b / ((dimX b target - 1 : ℤ) : ℝ)

/-- spacing[1] = extents[1] / (dimensions[1] - 1) -/
noncomputable def spacingY (b : Bounds) (target : ℝ) : ℝ :=
  extentY b / ((dimY b target - 1 : ℤ) : ℝ)

/-- spacing[2] = extents[2] / (dimensions[2] - 1) -/
noncomputable def spacingZ (b : Bounds) (target : ℝ) : ℝ :=
  extentZ b / ((dimZ b target - 1 : ℤ) : ℝ)

/-- Embedding of `damvis_utils.resample_to_uniform_grid`.  There is no
explicit guard in the source; the error branches below record exactly where
the Python evaluation raises:
* `volume / target_cells` raises ZeroDivisionError when `target_cells = 0`;
* a negative `volume / target_cells` makes `** (1/3)` return a complex
  number, on which `np.ceil` raises TypeError;
* `cell_size = 0` (i.e. zero volume) makes `extents[i] / cell_size` raise
  ZeroDivisionError;
* `dimensions[i] = 1` makes `extents[i] / (dimensions[i] - 1)` raise
  ZeroDivisionError;
* pyvista `ImageData` rejects a negative spacing with ValueError.
The interpolation of field values (`uniform_grid.sample`) is geometric and
outside the numeric model; the grid geometry is returned. -/
noncomputable def resample_to_uniform_grid (b : Bounds) (target : ℝ) :
    Except PyError UniformGrid :=
  if target = 0 then .error .zeroDivisionError
  else if boxVolume b / target < 0 then .error .typeError
  else if cell_size b target = 0 then .error .zeroDivisionError
  else if dimX b target = 1 ∨ dimY b target = 1 ∨ dimZ b target = 1 then
    .error .zeroDivisionError
  else if spacingX b target < 0 ∨ spacingY b target < 0 ∨ spacingZ b target < 0 then
    .error .valueError
  else
    .ok ⟨dimX b target, dimY b target, dimZ b target,
         spacingX b target, spacingY b target, spacingZ b target,
         b.xmin, b.ymin, b.zmin⟩

/-- Result of `create_volume_actor`: a volume actor built over the resampled
grid, or the wireframe actor built by `create_fallback_actor`. -/
inductive ActorResult where
  | volume (g : UniformGrid)
  | fallbackWireframe
deriving Nonempty

/-- Embedding of the `qt_dam_visualizer.create_volume_actor` control flow:
the whole body runs inside try/except, and any exception (in particular one
raised by `resample_to_uniform_grid`) makes it return the wireframe fallback
actor for the current frame. -/
noncomputable def create_volume_actor (b : Bounds) (target : ℝ) : ActorResult :=
  match resample_to_uniform_grid b target with
  | .ok g => .volume g
  | .error _ => .fallbackWireframe

/-! ## ArtifactCleaner — damvis_utils.resample_to_uniform_grid_with_cleanup

Array samples are IEEE floats that may be NaN or infinite; finite values are
modelled as exact rationals. -/

/-- One float sample of the resampled field: finite, positive infinity,
negative infinity, or NaN. -/
inductive FVal where
  | fin (q : ℚ)
  | pinf
  | ninf
  | nan
deriving DecidableEq

/-- np.isnan -/
def FVal.isnan : FVal → Bool
  | .nan => true
  | _ => false

/-- np.isinf -/
def FVal.isinf : FVal → Bool
  | .pinf => true
  | .ninf => true
  | _ => false

/-- IEEE `<` on float samples: any comparison with NaN is false. -/
def FVal.lt : FVal → FVal → Bool
  | .nan, _ => false
  | _, .nan => false
  | .ninf, .ninf => false
  | .ninf, _ => true
  | _, .ninf => false
  | .pinf, _ => false
  | _, .pinf => true
  | .fin a, .fin b => decide (a < b)

/-- IEEE subtraction of 1.0 from a float sample. -/
def FVal.sub1 : FVal → FVal
  | .fin q => .fin (q - 1)
  | .pinf => .pinf
  | .ninf => .ninf
  | .nan => .nan

/-- Pairwise NaN-ignoring minimum, the reduction underlying `np.nanmin`:
a NaN operand is dropped, otherwise the usual float minimum (infinities
participate). -/
def FVal.fmin (a b : FVal) : FVal :=
  if a.isnan then b else if b.isnan then a else if a.lt b then a else b

/-- np.nanmin over an array: minimum ignoring NaN entries; an all-NaN array
yields NaN (numpy emits a warning, not an exception). -/
def nanmin (l : List FVal) : FVal := l.foldl FVal.fmin .nan

/-- Step 1 of the cleanup (lines 92-97 of damvis_utils.py):
`data[nan_mask] = np.nanmin(data) - 1.0` where
`nan_mask = np.isnan(data) | np.isinf(data)`.  The right-hand side is
evaluated over the unmodified array. -/
def clean_step1 (data : List FVal) : List FVal :=
  if data.any (fun x => x.isnan || x.isinf) then
    data.map (fun x => if x.isnan || x.isinf then (nanmin data).sub1 else x)
  else data

/-- Step 2 of the cleanup (lines 99-109 of damvis_utils.py): with
`buffer = (valid_max - valid_min) * 0.1`, every sample below
`valid_min - buffer` or above `valid_max + buffer` is replaced by
`valid_min - 1.0`.  `valid_min` and `valid_max` come from the source field
and are modelled as finite. -/
def clean_step2 (valid_min valid_max : ℚ) (data : List FVal) : List FVal :=
  if data.any (fun x =>
      x.lt (.fin (valid_min - (valid_max - valid_min) * (1 / 10))) ||
      (FVal.fin (valid_max + (valid_max - valid_min) * (1 / 10))).lt x) then
    data.map (fun x =>
      if x.lt (.fin (valid_min - (valid_max - valid_min) * (1 / 10))) ||
          (FVal.fin (valid_max + (valid_max - valid_min) * (1 / 10))).lt x then
        .fin (valid_min - 1)
      else x)
  else data

/-- The cleanup applied to the resampled scalar array: NaN/Inf replacement
first, out-of-range thresholding second. -/
def clean_resampled (valid_min valid_max : ℚ) (data : List FVal) : List FVal :=
  clean_step2 valid_min valid_max (clean_step1 data)

/-! ## RangeTracker — qt_dam_visualizer.update_data_range -/

/-- The range-related state: the two manual spinbox values and the effective
global range. -/
structure RangeState where
  spin_min : ℚ
  spin_max : ℚ
  global_min : ℚ
  global_max : ℚ
deriving DecidableEq

/-- Which branch of `update_data_range` produced the effective range. -/
inductive Provenance where
  | auto
  | manual
deriving DecidableEq

/-- tolerance = 0.001 -/
def tolerance : ℚ := 1 / 1000

/-- Embedding of `qt_dam_visualizer.update_data_range`: if either manual
spinbox value differs from the auto-detected value by more than the
tolerance, the manual values become the effective range (spinboxes kept);
otherwise the auto-detected values become the effective range and the
spinboxes are snapped to them.  (Qt rounds a spinbox value to its 3
configured decimals; that GUI quantization is within the tolerance and is
not modelled.) -/
def update_data_range (s : RangeState) (auto_min auto_max : ℚ) :
    RangeState × Provenance :=
  if |s.spin_min - auto_min| > tolerance ∨ |s.spin_max - auto_max| > tolerance then
    (⟨s.spin_min, s.spin_max, s.spin_min, s.spin_max⟩, .manual)
  else
    (⟨auto_min, auto_max, auto_min, auto_max⟩, .auto)

/-- Session state relevant to range tracking: the active scalar selection
(abstracted to an index) together with the range state. -/
structure VizState where
  scalar : ℕ
  range : RangeState
deriving DecidableEq

/-- Embedding of one Apply/frame update as far as the value range is
concerned: `apply_parameter_changes` copies the combo selection into
`active_scalars` and the spinbox values into the global range, then
`update_visualization` resamples and calls `update_data_range` with the
auto-detected range of the (new) selection.  No code path consults whether
the selection changed. -/
def apply_parameter_changes (s : VizState) (new_scalar : ℕ)
    (auto_min auto_max : ℚ) : VizState × Provenance :=
  let r := update_data_range
    ⟨s.range.spin_min, s.range.spin_max, s.range.spin_min, s.range.spin_max⟩
    auto_min auto_max
  (⟨new_scalar, r.1⟩, r.2)

/-! ## IsosurfaceGenerator — qt_dam_visualizer.create_isosurface_actors -/

/-- Embedding of the isovalue selection (lines 1193-1205): Single mode gives
the one configured value; Multiple mode gives
`global_min + i * (global_max - global_min) / (num + 1)` for `i = 1..num`
when `global_max > global_min` and `num > 1`, and otherwise falls back to
the single configured value. -/
def iso_values (single_mode : Bool) (iso_value global_min global_max : ℚ)
    (num_surfaces : ℕ) : List ℚ :=
  if single_mode then [iso_value]
  else if global_max > global_min ∧ 1 < num_surfaces then
    (List.range num_surfaces).map
      (fun (i : ℕ) => global_min + ((i : ℚ) + 1) * ((global_max - global_min) / ((num_surfaces : ℚ) + 1)))
  else [iso_value]

/-- Embedding of the per-actor opacity (lines 1264-1282): start from the
configured isosurface opacity, multiply by 0.7 when not in single mode and
more than one isovalue is in play, and finally raise any value that is at
least 0.9 to fully opaque 1.0. -/
def surface_opacity (single_mode : Bool) (iso_opacity : ℚ) (num_values : ℕ) : ℚ :=
  let base := if single_mode = false ∧ 1 < num_values then iso_opacity * (7 / 10)
              else iso_opacity
  if base ≥ 9 / 10 then 1 else base

/-! ## Opacity presets — qt_dam_visualizer control panel

A Qt slider holds an integer value clamped to its range 0..100; reading a
channel back divides by 100. -/

/-- QSlider.setValue with range 0..100: the integer is clamped into the
range. -/
def slider_set_value (v : ℤ) : ℕ := (max 0 (min 100 v)).toNat

/-- Embedding of `apply_opacity_preset_linear_up` over `n` sliders: slider
`i` receives `int((i / (n - 1)) * 100)`.  The Python float quotient is
modelled as an exact rational, so the truncation is the floor
`(i * 100) / (n - 1)` in ℕ (for the 9- and 18-slider panels of this
application the float computation is exact).  The code divides by zero when
`n = 1`; the panel always has 18 sliders. -/
def apply_opacity_preset_linear_up (n : ℕ) : List ℕ :=
  (List.range n).map (fun (i : ℕ) => slider_set_value (Int.ofNat ((i * 100) / (n - 1))))

/-- Embedding of `get_opacity_values`: each slider value divided by 100. -/
def get_opacity_values (sliders : List ℕ) : List ℚ :=
  sliders.map (fun (v : ℕ) => (v : ℚ) / 100)

/-! ## FrameCatalog — qt_dam_visualizer.load_data_location and
damvis.find_vtk_files

Filenames are lists of characters; the directory listing is a list of
filenames in arbitrary order. -/

/-- The fixed filename prefix dcinv. -/
def dcinv : List Char := ['d', 'c', 'i', 'n', 'v']

/-- The fixed filename extension .vtk. -/
def vtkExt : List Char := ['.', 'v', 't', 'k']

/-- file.startswith("dcinv") and file.endswith(".vtk") -/
def keep_file (f : List Char) : Bool :=
  dcinv.isPrefixOf f && vtkExt.isSuffixOf f

/-- file.split(sep)[-1] for a one-character separator: the suffix after the
last occurrence of the separator (the whole string when absent). -/
def after_last (sep : Char) (f : List Char) : List Char :=
  (f.reverse.takeWhile (fun c => c ≠ sep)).reverse

/-- s.split(sep)[0] for a one-character separator: the prefix before the
first occurrence of the separator (the whole string when absent). -/
def before_first (sep : Char) (s : List Char) : List Char :=
  s.takeWhile (fun c => c ≠ sep)

/-- Decimal value of a nonempty all-digit string, else none. -/
def digits_val (l : List Char) : Option ℕ :=
  if l = [] then none
  else if l.all Char.isDigit then
    some (l.foldl (fun acc c => 10 * acc + (c.toNat - Char.toNat '0')) 0)
  else none

/-- Python int(s) on the extracted token, modelled for an optional leading
minus sign followed by decimal digits; any other string raises ValueError
(modelled as none). -/
def py_int (l : List Char) : Option ℤ :=
  match l with
  | '-' :: rest => (digits_val rest).map (fun n => -(n : ℤ))
  | _ => (digits_val l).map (fun n => (n : ℤ))

/-- The parsed frame index: Python applies int to the token after the last
underscore and before the first following dot. -/
def parse_index (f : List Char) : Option ℤ :=
  py_int (before_first '.' (after_last '_' f))

/-- Python dict assignment d[k] = v: overwrite in place if the key exists,
else append. -/
def dict_insert (d : List (ℤ × List Char)) (k : ℤ) (v : List Char) :
    List (ℤ × List Char) :=
  if d.any (fun p => p.1 = k) then
    d.map (fun p => if p.1 = k then (k, v) else p)
  else d ++ [(k, v)]

/-- Python dict lookup d[k] (first and only entry with that key). -/
def dict_get (d : List (ℤ × List Char)) (k : ℤ) : List Char :=
  ((d.find? (fun p => p.1 = k)).map Prod.snd).getD []

/-- The index→file dict built by the discovery loop: for every kept file,
`self.vtk_files[number] = file`. -/
def vtk_files_dict (kept : List (List Char)) : List (ℤ × List Char) :=
  kept.foldl (fun d f =>
    match parse_index f with
    | some n => dict_insert d n f
    | none => d) []

/-- Rebuilding of the dict with its keys in sorted numeric order:
sorted_keys = sorted(self.vtk_files.keys());
self.vtk_files = yield of key: self.vtk_files[key] over sorted_keys. -/
def sort_dict (d : List (ℤ × List Char)) : List (ℤ × List Char) :=
  ((d.map Prod.fst).insertionSort (· ≤ ·)).map (fun k => (k, dict_get d k))

/-- Embedding of the catalog construction shared by
`load_data_location` (lines 1019-1031) and `find_vtk_files` (lines 55-63):
keep the files with the fixed prefix and extension, parse each index
(`int` raising on an unparsable token aborts the whole loop, modelled as
`none`), build the index→file dict, and rebuild it with the keys in sorted
numeric order. -/
def load_data_location (files : List (List Char)) :
    Option (List (ℤ × List Char)) :=
  if (files.filter keep_file).all (fun f => (parse_index f).isSome) then
    some (sort_dict (vtk_files_dict (files.filter keep_file)))
  else none

/-! ## Helper lemmas -/

theorem update_data_range_eq_manual (s : RangeState) (a b : ℚ)
    (h : tolerance < |s.spin_min - a| ∨ tolerance < |s.spin_max - b|) :
    update_data_range s a b =
      (⟨s.spin_min, s.spin_max, s.spin_min, s.spin_max⟩, Provenance.manual) := by
  rw [update_data_range, if_pos]
  exact h

theorem update_data_range_eq_auto (s : RangeState) (a b : ℚ)
    (h1 : |s.spin_min - a| ≤ tolerance) (h2 : |s.spin_max - b| ≤ tolerance) :
    update_data_range s a b = (⟨a, b, a, b⟩, Provenance.auto) := by
  rw [update_data_range, if_neg]
  push_neg
  exact ⟨h1, h2⟩

theorem slider_set_value_ofNat (v : ℕ) (h : v ≤ 100) :
    slider_set_value (Int.ofNat v) = v := by
  rw [slider_set_value, Int.ofNat_eq_natCast]
  rw [min_eq_right (by exact_mod_cast h), max_eq_right (Int.natCast_nonneg v)]
  exact Int.toNat_natCast v

theorem getD_range_map (f : ℕ → ℚ) (c k : ℕ) (h : k < c) :
    ((List.range c).map f).getD k 0 = f k := by
  rw [List.getD_eq_getElem _ _ (by simpa using h), List.getElem_map,
    List.getElem_range]

/-! ## C4 — auto/manual hysteresis of the range tracker -/

/-- C4: on every range update, if both manual spinbox values are within
0.001 of the auto-detected values then the effective range is the
auto-detected one with provenance Auto and the spinboxes are snapped to it;
otherwise the effective range is the manual one with provenance Manual. -/
theorem update_data_range_spec (s : RangeState) (auto_min auto_max : ℚ) :
    (|s.spin_min - auto_min| ≤ tolerance ∧ |s.spin_max - auto_max| ≤ tolerance →
      update_data_range s auto_min auto_max =
        (⟨auto_min, auto_max, auto_min, auto_max⟩, Provenance.auto)) ∧
    (tolerance < |s.spin_min - auto_min| ∨ tolerance < |s.spin_max - auto_max| →
      update_data_range s auto_min auto_max =
        (⟨s.spin_min, s.spin_max, s.spin_min, s.spin_max⟩, Provenance.manual)) :=
  ⟨fun h => update_data_range_eq_auto s auto_min auto_max h.1 h.2,
   fun h => update_data_range_eq_manual s auto_min auto_max h⟩

/-- C4 witness: with spinboxes at (0, 5), an auto range of (0, 5) keeps
provenance Auto with snapping; an auto range of (-0.189, 4.970) makes the
(0, 5) spinboxes a manual override. -/
theorem update_data_range_spec_witness :
    ((|(0 : ℚ) - 0| ≤ tolerance ∧ |(5 : ℚ) - 5| ≤ tolerance) ∧
      update_data_range ⟨0, 5, 3, 4⟩ 0 5 = (⟨0, 5, 0, 5⟩, Provenance.auto)) ∧
    (tolerance < |(0 : ℚ) - -189 / 1000| ∧
      update_data_range ⟨0, 5, 0, 5⟩ (-189 / 1000) (497 / 100) =
        (⟨0, 5, 0, 5⟩, Provenance.manual)) := by
  have habs : tolerance < |(0 : ℚ) - -189 / 1000| := by
    rw [abs_of_nonneg (by norm_num : (0 : ℚ) ≤ 0 - -189 / 1000)]
    norm_num [tolerance]
  exact ⟨⟨⟨by norm_num [tolerance], by norm_num [tolerance]⟩,
    (update_data_range_spec ⟨0, 5, 3, 4⟩ 0 5).1
      ⟨by norm_num [tolerance], by norm_num [tolerance]⟩⟩,
   ⟨habs,
    (update_data_range_spec ⟨0, 5, 0, 5⟩ (-189 / 1000) (497 / 100)).2
      (Or.inl habs)⟩⟩

/-! ## C5 — behaviour of a manual range across a scalar-selection change -/

/-- C5 counterexample: with a manual override (0, 5) in the spinboxes and
the scalar selection changing from 0 to 1 whose auto-detected range is
(1, 10), the update keeps the manual override with provenance Manual; the
claimed reset to Auto with range (1, 10) does not happen. -/
theorem apply_parameter_changes_cex :
    (1 : ℕ) ≠ 0 ∧
    apply_parameter_changes ⟨0, ⟨0, 5, 0, 5⟩⟩ 1 1 10 =
      (⟨1, ⟨0, 5, 0, 5⟩⟩, Provenance.manual) ∧
    ((⟨1, ⟨0, 5, 0, 5⟩⟩, Provenance.manual) : VizState × Provenance) ≠
      (⟨1, ⟨1, 10, 1, 10⟩⟩, Provenance.auto) := by
  refine ⟨one_ne_zero, ?_, by simp⟩
  norm_num [apply_parameter_changes, update_data_range, tolerance]

/-- C5 amended: a scalar-selection change does not by itself reset
provenance; the update runs the same tolerance test against the new
selections auto-detected range, so the manual override is carried over to
the new scalar whenever it differs from that range by more than 0.001, and
provenance becomes Auto (with the auto range effective) only when it is
within 0.001 of it. -/
theorem apply_parameter_changes_scalar_change (s : VizState) (new_scalar : ℕ)
    (auto_min auto_max : ℚ) (_hs : new_scalar ≠ s.scalar) :
    (tolerance < |s.range.spin_min - auto_min| ∨
        tolerance < |s.range.spin_max - auto_max| →
      apply_parameter_changes s new_scalar auto_min auto_max =
        (⟨new_scalar, ⟨s.range.spin_min, s.range.spin_max,
            s.range.spin_min, s.range.spin_max⟩⟩, Provenance.manual)) ∧
    (|s.range.spin_min - auto_min| ≤ tolerance ∧
        |s.range.spin_max - auto_max| ≤ tolerance →
      apply_parameter_changes s new_scalar auto_min auto_max =
        (⟨new_scalar, ⟨auto_min, auto_max, auto_min, auto_max⟩⟩,
         Provenance.auto)) := by
  constructor
  · intro h
    have hm := update_data_range_eq_manual
      ⟨s.range.spin_min, s.range.spin_max, s.range.spin_min, s.range.spin_max⟩
      auto_min auto_max h
    simp [apply_parameter_changes, hm]
  · rintro ⟨h1, h2⟩
    have ha := update_data_range_eq_auto
      ⟨s.range.spin_min, s.range.spin_max, s.range.spin_min, s.range.spin_max⟩
      auto_min auto_max h1 h2
    simp [apply_parameter_changes, ha]

/-- C5 amended witness: instantiates the amended statement on the
counterexample scenario. -/
theorem apply_parameter_changes_scalar_change_witness :
    ((1 : ℕ) ≠ 0 ∧ tolerance < |(0 : ℚ) - 1|) ∧
    apply_parameter_changes ⟨0, ⟨0, 5, 0, 5⟩⟩ 1 1 10 =
      (⟨1, ⟨0, 5, 0, 5⟩⟩, Provenance.manual) :=
  ⟨⟨by decide, by norm_num [tolerance]⟩,
   (apply_parameter_changes_scalar_change ⟨0, ⟨0, 5, 0, 5⟩⟩ 1 1 10
      (by decide)).1 (Or.inl (by norm_num [tolerance]))⟩

/-! ## C6 — isovalue selection in Multiple mode -/

/-- C6: in Multiple mode with count c and range (min, max), if max is above
min and c exceeds 1 then exactly c isovalues are produced, the k-th being
min + (k+1)(max-min)/(c+1) for k = 0..c-1 (i.e. k = 1..c in 1-based form),
each strictly between min and max, consecutive values a constant step
apart; otherwise the single configured value is produced. -/
theorem iso_values_spec (v gmin gmax : ℚ) (c : ℕ) :
    (gmin < gmax → 1 < c →
      (iso_values false v gmin gmax c).length = c ∧
      (∀ k, k < c → (iso_values false v gmin gmax c).getD k 0 =
        gmin + ((k : ℚ) + 1) * ((gmax - gmin) / ((c : ℚ) + 1))) ∧
      (∀ k, k < c → gmin < (iso_values false v gmin gmax c).getD k 0 ∧
        (iso_values false v gmin gmax c).getD k 0 < gmax) ∧
      (∀ k, k + 1 < c → (iso_values false v gmin gmax c).getD (k + 1) 0 -
        (iso_values false v gmin gmax c).getD k 0 =
          (gmax - gmin) / ((c : ℚ) + 1))) ∧
    (gmax ≤ gmin ∨ c ≤ 1 → iso_values false v gmin gmax c = [v]) := by
  constructor
  · intro hr hc
    have hcond : gmax > gmin ∧ 1 < c := ⟨hr, hc⟩
    have hval : ∀ k, k < c → (iso_values false v gmin gmax c).getD k 0 =
        gmin + ((k : ℚ) + 1) * ((gmax - gmin) / ((c : ℚ) + 1)) := by
      intro k hk
      rw [iso_values, if_neg (by simp), if_pos hcond, getD_range_map _ _ _ hk]
    have hstep : (0 : ℚ) < (gmax - gmin) / ((c : ℚ) + 1) := by
      apply div_pos (by linarith)
      positivity
    refine ⟨?_, hval, ?_, ?_⟩
    · rw [iso_values, if_neg (by simp), if_pos hcond, List.length_map,
        List.length_range]
    · intro k hk
      rw [hval k hk]
      constructor
      · nlinarith [hstep, (Nat.cast_nonneg k : (0 : ℚ) ≤ (k : ℚ))]
      · have hklt : ((k : ℚ) + 1) < (c : ℚ) + 1 := by
          have := (Nat.cast_lt (α := ℚ)).2 hk
          linarith
        have hle : ((k : ℚ) + 1) * ((gmax - gmin) / ((c : ℚ) + 1)) <
            ((c : ℚ) + 1) * ((gmax - gmin) / ((c : ℚ) + 1)) :=
          mul_lt_mul_of_pos_right hklt hstep
        have hcancel : ((c : ℚ) + 1) * ((gmax - gmin) / ((c : ℚ) + 1)) =
            gmax - gmin := by
          field_simp
        linarith
    · intro k hk
      rw [hval (k + 1) hk, hval k (by omega)]
      push_cast
      ring
  · intro h
    rw [iso_values, if_neg (by simp), if_neg]
    rintro ⟨h1, h2⟩
    rcases h with h | h
    · exact absurd h1 (not_lt.mpr h)
    · omega

/-- C6 witness: Multiple mode with count 5 over the range
(-0.189, 4.970) gives 5 values; the middle one equals the interior formula
at k = 2 and lies strictly inside the range. -/
theorem iso_values_spec_witness :
    ((-189 / 1000 : ℚ) < 497 / 100 ∧ (1 : ℕ) < 5) ∧
    (iso_values false 7 (-189 / 1000) (497 / 100) 5).length = 5 ∧
    (iso_values false 7 (-189 / 1000) (497 / 100) 5).getD 2 0 = 4781 / 2000 ∧
    ((-189 / 1000 : ℚ) < 4781 / 2000 ∧ (4781 / 2000 : ℚ) < 497 / 100) :=
  ⟨⟨by norm_num, by norm_num⟩,
   ((iso_values_spec 7 (-189 / 1000) (497 / 100) 5).1 (by norm_num)
      (by norm_num)).1,
   ((((iso_values_spec 7 (-189 / 1000) (497 / 100) 5).1 (by norm_num)
      (by norm_num)).2.1) 2 (by norm_num)).trans (by norm_num),
   by norm_num, by norm_num⟩

/-! ## C7 — per-surface opacity -/

/-- C7 counterexample: in Single mode with one surface and configured
opacity 0.95 the actor opacity is set to 1.0, not to the configured 0.95:
a further near-opaque promotion is applied after the claimed
transformations. -/
theorem surface_opacity_cex :
    surface_opacity true (95 / 100) 1 = 1 ∧ (1 : ℚ) ≠ 95 / 100 := by
  constructor
  · norm_num [surface_opacity]
  · norm_num

/-- C7 amended: the opacity is the configured value for a single isovalue
and 0.7 times it when several isovalues are in play, except that any
resulting value of at least 0.9 is promoted to fully opaque 1.0. -/
theorem surface_opacity_spec (single_mode : Bool) (op : ℚ) (n : ℕ) :
    (single_mode = true ∨ n ≤ 1 →
      surface_opacity single_mode op n = if op ≥ 9 / 10 then 1 else op) ∧
    (single_mode = false → 1 < n →
      surface_opacity single_mode op n =
        if op * (7 / 10) ≥ 9 / 10 then 1 else op * (7 / 10)) := by
  constructor
  · intro h
    have hcond : ¬(single_mode = false ∧ 1 < n) := by
      rcases h with h | h
      · simp [h]
      · intro hc
        omega
    simp only [surface_opacity, if_neg hcond]
  · intro h1 h2
    simp only [surface_opacity, if_pos (And.intro h1 h2)]

/-- C7 amended witness: three requested isovalues at configured opacity 0.5
give per-surface opacity 0.35. -/
theorem surface_opacity_spec_witness :
    ((false : Bool) = false ∧ (1 : ℕ) < 3) ∧
    surface_opacity false (1 / 2) 3 = 7 / 20 :=
  ⟨⟨rfl, by norm_num⟩,
   ((surface_opacity_spec false (1 / 2) 3).2 rfl (by norm_num)).trans
     (by norm_num)⟩

/-! ## C8 — LinearUp opacity preset -/

/-- C8 counterexample: the preset stores integer percentages, so with 9
channels the readback is [0, 0.12, 0.25, 0.37, 0.5, 0.62, 0.75, 0.87, 1]
rather than the claimed exact i/8 ramp: channel 1 is 0.12, not 0.125. -/
theorem linear_up_cex :
    get_opacity_values (apply_opacity_preset_linear_up 9) =
      [0, 3 / 25, 1 / 4, 37 / 100, 1 / 2, 31 / 50, 3 / 4, 87 / 100, 1] ∧
    (3 / 25 : ℚ) ≠ 1 / 8 := by
  constructor
  · norm_num [get_opacity_values, apply_opacity_preset_linear_up,
      slider_set_value, List.range_succ]
    simp
    norm_num
  · norm_num

/-- C8 amended: applying LinearUp over N sliders and reading back yields
channel i equal to the integer-percent quantization
(floor(100 i / (N-1))) / 100 of the linear ramp; channel 0 is 0 and channel
N-1 is 1. -/
theorem linear_up_spec (n : ℕ) (hn : 2 ≤ n) :
    (get_opacity_values (apply_opacity_preset_linear_up n)).length = n ∧
    (∀ i, i < n → (get_opacity_values (apply_opacity_preset_linear_up n)).getD i 0 =
      (((i * 100) / (n - 1) : ℕ) : ℚ) / 100) ∧
    (get_opacity_values (apply_opacity_preset_linear_up n)).getD 0 0 = 0 ∧
    (get_opacity_values (apply_opacity_preset_linear_up n)).getD (n - 1) 0 = 1 := by
  have hpos : 0 < n - 1 := by omega
  have hbound : ∀ i, i < n → (i * 100) / (n - 1) ≤ 100 := by
    intro i hi
    have hile : i ≤ n - 1 := by omega
    calc (i * 100) / (n - 1) ≤ ((n - 1) * 100) / (n - 1) :=
          Nat.div_le_div_right (Nat.mul_le_mul_right 100 hile)
      _ = 100 := Nat.mul_div_cancel_left 100 hpos
  have hclamp : ∀ i, i < n →
      slider_set_value (Int.ofNat ((i * 100) / (n - 1))) = (i * 100) / (n - 1) := by
    intro i hi
    exact slider_set_value_ofNat _ (hbound i hi)
  have hval : ∀ i, i < n →
      (get_opacity_values (apply_opacity_preset_linear_up n)).getD i 0 =
        (((i * 100) / (n - 1) : ℕ) : ℚ) / 100 := by
    intro i hi
    rw [get_opacity_values, apply_opacity_preset_linear_up, List.map_map,
      getD_range_map _ _ _ hi]
    show (↑(slider_set_value (Int.ofNat ((i * 100) / (n - 1)))) : ℚ) / 100 =
      (((i * 100) / (n - 1) : ℕ) : ℚ) / 100
    rw [hclamp i hi]
  refine ⟨?_, hval, ?_, ?_⟩
  · rw [get_opacity_values, apply_opacity_preset_linear_up, List.length_map,
      List.length_map, List.length_range]
  · rw [hval 0 (by omega)]
    simp
  · rw [hval (n - 1) (by omega), Nat.mul_div_cancel_left 100 hpos]
    norm_num

/-- C8 amended witness: with 9 sliders, channel 1 reads back as 0.12,
channel 0 as 0 and channel 8 as 1. -/
theorem linear_up_spec_witness :
    (2 : ℕ) ≤ 9 ∧
    (get_opacity_values (apply_opacity_preset_linear_up 9)).length = 9 ∧
    (get_opacity_values (apply_opacity_preset_linear_up 9)).getD 1 0 = 3 / 25 ∧
    (get_opacity_values (apply_opacity_preset_linear_up 9)).getD 0 0 = 0 ∧
    (get_opacity_values (apply_opacity_preset_linear_up 9)).getD 8 0 = 1 :=
  ⟨by norm_num,
   (linear_up_spec 9 (by norm_num)).1,
   ((linear_up_spec 9 (by norm_num)).2.1 1 (by norm_num)).trans (by norm_num),
   (linear_up_spec 9 (by norm_num)).2.2.1,
   (linear_up_spec 9 (by norm_num)).2.2.2⟩

/-! ## Cleanup lemmas -/

theorem any_eq_false_forall {α : Type} (p : α → Bool) (l : List α)
    (h : ¬l.any p = true) : ∀ x ∈ l, p x = false := by
  intro x hx
  by_contra hpx
  exact h (List.any_eq_true.mpr ⟨x, hx, by simpa using hpx⟩)

theorem fmin_isnan (a b : FVal) :
    (FVal.fmin a b).isnan = (a.isnan && b.isnan) := by
  rw [FVal.fmin]
  by_cases ha : a.isnan = true
  · simp [ha]
  · rw [if_neg ha]
    by_cases hb : b.isnan = true
    · simp [ha, hb]
    · rw [if_neg hb]
      have hna : a.isnan = false := by simpa using ha
      have hnb : b.isnan = false := by simpa using hb
      have hval : (if a.lt b = true then a else b).isnan = false := by
        split
        · exact hna
        · exact hnb
      rw [hval, hna, hnb]
      rfl

theorem foldl_fmin_isnan (l : List FVal) (acc : FVal) :
    (l.foldl FVal.fmin acc).isnan = (acc.isnan && l.all FVal.isnan) := by
  induction l generalizing acc with
  | nil => simp
  | cons x xs ih =>
    simp [List.foldl_cons, ih, fmin_isnan, Bool.and_assoc]

theorem nanmin_isnan (l : List FVal) :
    (nanmin l).isnan = l.all FVal.isnan := by
  rw [nanmin, foldl_fmin_isnan]
  rfl

theorem sub1_isnan (a : FVal) : a.sub1.isnan = a.isnan := by
  cases a <;> rfl

theorem nanmin_not_nan (data : List FVal) (h : ∃ x ∈ data, x.isnan = false) :
    (nanmin data).isnan = false := by
  rw [nanmin_isnan]
  rcases h with ⟨x, hx, hnn⟩
  exact List.all_eq_false.mpr ⟨x, hx, by simp [hnn]⟩

theorem mem_clean_step1_not_nan (data : List FVal)
    (h : ∃ x ∈ data, x.isnan = false) :
    ∀ y ∈ clean_step1 data, y.isnan = false := by
  intro y hy
  rw [clean_step1] at hy
  split at hy
  · rcases List.mem_map.mp hy with ⟨x, hx, rfl⟩
    by_cases hmask : (x.isnan || x.isinf) = true
    · rw [if_pos hmask, sub1_isnan]
      exact nanmin_not_nan data h
    · rw [if_neg hmask]
      simp only [Bool.or_eq_true, not_or] at hmask
      simpa using hmask.1
  · rename_i hany
    have hx := any_eq_false_forall _ _ hany y hy
    simp only [Bool.or_eq_false_iff] at hx
    exact hx.1

theorem not_nan_cases (x : FVal) (h : x.isnan = false) :
    (∃ q, x = .fin q) ∨ x = .pinf ∨ x = .ninf := by
  cases x
  · exact Or.inl ⟨_, rfl⟩
  · exact Or.inr (Or.inl rfl)
  · exact Or.inr (Or.inr rfl)
  · simp [FVal.isnan] at h

theorem mem_clean_step2_finite (valid_min valid_max : ℚ) (d : List FVal)
    (h : ∀ x ∈ d, x.isnan = false) :
    ∀ y ∈ clean_step2 valid_min valid_max d,
      y.isnan = false ∧ y.isinf = false := by
  intro y hy
  rw [clean_step2] at hy
  split at hy
  · rcases List.mem_map.mp hy with ⟨x, hx, rfl⟩
    by_cases hc : (x.lt (.fin (valid_min - (valid_max - valid_min) * (1 / 10))) ||
        (FVal.fin (valid_max + (valid_max - valid_min) * (1 / 10))).lt x) = true
    · rw [if_pos hc]
      exact ⟨rfl, rfl⟩
    · rw [if_neg hc]
      have hc2 : (x.lt (.fin (valid_min - (valid_max - valid_min) * (1 / 10))) ||
          (FVal.fin (valid_max + (valid_max - valid_min) * (1 / 10))).lt x) = false := by
        simpa using hc
      simp only [Bool.or_eq_false_iff] at hc2
      rcases not_nan_cases x (h x hx) with ⟨q, rfl⟩ | rfl | rfl
      · exact ⟨rfl, rfl⟩
      · simp [FVal.lt] at hc2
      · simp [FVal.lt] at hc2
  · rename_i hany
    have hc2 := any_eq_false_forall _ _ hany y hy
    simp only [Bool.or_eq_false_iff] at hc2
    rcases not_nan_cases y (h y hy) with ⟨q, rfl⟩ | rfl | rfl
    · exact ⟨rfl, rfl⟩
    · simp [FVal.lt] at hc2
    · simp [FVal.lt] at hc2

theorem clean_step1_length (data : List FVal) :
    (clean_step1 data).length = data.length := by
  rw [clean_step1]
  split
  · exact List.length_map _ _
  · rfl

theorem getD_map_of_lt {α : Type} (f : α → α) (l : List α) (i : ℕ)
    (h : i < l.length) (d : α) :
    (l.map f).getD i d = f (l.getD i d) := by
  rw [List.getD_eq_getElem _ _ (by simpa using h), List.getD_eq_getElem _ _ h,
    List.getElem_map]

/-! ## C2 — NaN/Inf cleanup -/

/-- C2 counterexample: on the all-NaN resampled array [NaN], np.nanmin is
NaN, the replacement value NaN - 1.0 is NaN, and the thresholding
comparisons with NaN are all false, so the output still contains a NaN. -/
theorem clean_resampled_cex :
    clean_resampled 0 5 [FVal.nan] = [FVal.nan] ∧ FVal.nan.isnan = true :=
  ⟨rfl, rfl⟩

/-- C2 amended: provided at least one sample is not NaN, the cleanup output
contains zero NaN and zero infinite entries; in step 1 every NaN or
infinite sample is replaced by np.nanmin(data) - 1.0 — the minimum of the
non-NaN samples (which can itself be -infinity), not of the finite ones —
and this replacement runs before the out-of-range thresholding step. -/
theorem clean_resampled_spec (valid_min valid_max : ℚ) (data : List FVal)
    (h : ∃ x ∈ data, x.isnan = false) :
    (∀ y ∈ clean_resampled valid_min valid_max data,
        y.isnan = false ∧ y.isinf = false) ∧
    (∀ i, i < data.length →
        ((data.getD i .nan).isnan || (data.getD i .nan).isinf) = true →
        (clean_step1 data).getD i .nan = (nanmin data).sub1) ∧
    clean_resampled valid_min valid_max data =
      clean_step2 valid_min valid_max (clean_step1 data) := by
  refine ⟨?_, ?_, rfl⟩
  · intro y hy
    exact mem_clean_step2_finite valid_min valid_max (clean_step1 data)
      (mem_clean_step1_not_nan data h) y hy
  · intro i hi hmask
    have hmem : data.getD i .nan ∈ data := by
      rw [List.getD_eq_getElem _ _ hi]
      exact List.getElem_mem hi
    rw [clean_step1, if_pos (List.any_eq_true.mpr ⟨_, hmem, hmask⟩)]
    rw [getD_map_of_lt _ _ _ hi, if_pos hmask]

/-- C2 amended witness: a mixed array with a NaN, a negative infinity and
two finite samples cleans to an array free of NaN and infinities. -/
theorem clean_resampled_spec_witness :
    (∃ x ∈ [FVal.nan, FVal.ninf, FVal.fin 5, FVal.fin 100], x.isnan = false) ∧
    ∀ y ∈ clean_resampled 0 5 [FVal.nan, FVal.ninf, FVal.fin 5, FVal.fin 100],
      y.isnan = false ∧ y.isinf = false :=
  ⟨⟨FVal.fin 5, by simp, rfl⟩,
   (clean_resampled_spec 0 5 _ ⟨FVal.fin 5, by simp, rfl⟩).1⟩

/-! ## C10 — cleanup touches only artifact samples -/

/-- C10: a finite sample lying within the buffered valid range
[validMin - buffer, validMax + buffer] is returned unchanged at its index
by the cleanup. -/
theorem clean_preserves_valid (valid_min valid_max : ℚ) (data : List FVal)
    (i : ℕ) (q : ℚ) (hi : i < data.length)
    (hx : data.getD i .nan = .fin q)
    (hlo : valid_min - (valid_max - valid_min) * (1 / 10) ≤ q)
    (hhi : q ≤ valid_max + (valid_max - valid_min) * (1 / 10)) :
    (clean_resampled valid_min valid_max data).getD i .nan = .fin q := by
  have hstep1 : (clean_step1 data).getD i .nan = .fin q := by
    rw [clean_step1]
    split
    · rw [getD_map_of_lt _ _ _ hi, hx, if_neg (by simp [FVal.isnan, FVal.isinf])]
    · exact hx
  have hlen1 : i < (clean_step1 data).length := by
    rw [clean_step1_length]
    exact hi
  have h1 : (FVal.fin q).lt
      (.fin (valid_min - (valid_max - valid_min) * (1 / 10))) = false := by
    simp only [FVal.lt, decide_eq_false_iff_not]
    exact not_lt.mpr hlo
  have h2 : (FVal.fin (valid_max + (valid_max - valid_min) * (1 / 10))).lt
      (FVal.fin q) = false := by
    simp only [FVal.lt, decide_eq_false_iff_not]
    exact not_lt.mpr hhi
  have hcond : ¬(((FVal.fin q).lt
      (.fin (valid_min - (valid_max - valid_min) * (1 / 10))) ||
      (FVal.fin (valid_max + (valid_max - valid_min) * (1 / 10))).lt
        (FVal.fin q)) = true) := by
    rw [h1, h2]
    simp
  rw [clean_resampled, clean_step2]
  split
  · rw [getD_map_of_lt _ _ _ hlen1, hstep1, if_neg hcond]
  · exact hstep1

/-- C10 witness: the in-range finite sample 3 with valid range [0, 5] is
preserved at its index. -/
theorem clean_preserves_valid_witness :
    ((0 : ℕ) < [FVal.fin 3].length ∧ [FVal.fin 3].getD 0 .nan = .fin 3 ∧
      (0 : ℚ) - (5 - 0) * (1 / 10) ≤ 3 ∧ (3 : ℚ) ≤ 5 + (5 - 0) * (1 / 10)) ∧
    (clean_resampled 0 5 [FVal.fin 3]).getD 0 .nan = .fin 3 :=
  ⟨⟨by simp, rfl, by norm_num, by norm_num⟩,
   clean_preserves_valid 0 5 [FVal.fin 3] 0 3 (by simp) rfl (by norm_num)
     (by norm_num)⟩

/-! ## C3 — resampler geometry for positive extents -/

/-- C3: for a box with three strictly positive extents and a target of at
least one cell, the resampler succeeds and produces the grid with
cellSize = (volume/target)^(1/3), dims[i] = ceil(e[i]/cellSize) + 1,
spacing[i] = e[i]/(dims[i]-1) and origin at the box minimum corner, and
every dims[i] is at least 2. -/
theorem resample_formulas (b : Bounds) (target : ℝ)
    (hx : 0 < extentX b) (hy : 0 < extentY b) (hz : 0 < extentZ b)
    (ht : 1 ≤ target) :
    resample_to_uniform_grid b target =
      .ok ⟨dimX b target, dimY b target, dimZ b target,
           spacingX b target, spacingY b target, spacingZ b target,
           b.xmin, b.ymin, b.zmin⟩ ∧
    (2 ≤ dimX b target ∧ 2 ≤ dimY b target ∧ 2 ≤ dimZ b target) ∧
    cell_size b target = Real.rpow (boxVolume b / target) (1 / 3) ∧
    dimX b target = ⌈extentX b / cell_size b target⌉ + 1 ∧
    dimY b target = ⌈extentY b / cell_size b target⌉ + 1 ∧
    dimZ b target = ⌈extentZ b / cell_size b target⌉ + 1 ∧
    spacingX b target = extentX b / ((dimX b target - 1 : ℤ) : ℝ) ∧
    spacingY b target = extentY b / ((dimY b target - 1 : ℤ) : ℝ) ∧
    spacingZ b target = extentZ b / ((dimZ b target - 1 : ℤ) : ℝ) := by
  have htpos : (0 : ℝ) < target := lt_of_lt_of_le one_pos ht
  have hvol : 0 < boxVolume b := by
    rw [boxVolume]
    exact mul_pos (mul_pos hx hy) hz
  have hq : 0 < boxVolume b / target := div_pos hvol htpos
  have hc : 0 < cell_size b target := by
    rw [cell_size]
    exact Real.rpow_pos_of_pos hq _
  have h2x : 2 ≤ dimX b target := by
    rw [dimX]
    have := Int.ceil_pos.mpr (div_pos hx hc)
    omega
  have h2y : 2 ≤ dimY b target := by
    rw [dimY]
    have := Int.ceil_pos.mpr (div_pos hy hc)
    omega
  have h2z : 2 ≤ dimZ b target := by
    rw [dimZ]
    have := Int.ceil_pos.mpr (div_pos hz hc)
    omega
  have hsx : 0 < spacingX b target := by
    rw [spacingX]
    exact div_pos hx (by exact_mod_cast (by omega : (0 : ℤ) < dimX b target - 1))
  have hsy : 0 < spacingY b target := by
    rw [spacingY]
    exact div_pos hy (by exact_mod_cast (by omega : (0 : ℤ) < dimY b target - 1))
  have hsz : 0 < spacingZ b target := by
    rw [spacingZ]
    exact div_pos hz (by exact_mod_cast (by omega : (0 : ℤ) < dimZ b target - 1))
  refine ⟨?_, ⟨h2x, h2y, h2z⟩, rfl, rfl, rfl, rfl, rfl, rfl, rfl⟩
  rw [resample_to_uniform_grid, if_neg (ne_of_gt htpos),
    if_neg (not_lt.mpr (le_of_lt hq)), if_neg (ne_of_gt hc),
    if_neg (by rintro (h | h | h) <;> omega),
    if_neg (by rintro (h | h | h) <;> linarith)]

/-- C3 witness: the unit box with a one-cell budget resamples to a 2x2x2
grid of unit spacing at the origin. -/
theorem resample_formulas_witness :
    (0 < extentX ⟨0, 1, 0, 1, 0, 1⟩ ∧ 0 < extentY ⟨0, 1, 0, 1, 0, 1⟩ ∧
      0 < extentZ ⟨0, 1, 0, 1, 0, 1⟩ ∧ (1 : ℝ) ≤ 1) ∧
    resample_to_uniform_grid ⟨0, 1, 0, 1, 0, 1⟩ 1 =
      .ok ⟨dimX ⟨0, 1, 0, 1, 0, 1⟩ 1, dimY ⟨0, 1, 0, 1, 0, 1⟩ 1,
           dimZ ⟨0, 1, 0, 1, 0, 1⟩ 1, spacingX ⟨0, 1, 0, 1, 0, 1⟩ 1,
           spacingY ⟨0, 1, 0, 1, 0, 1⟩ 1, spacingZ ⟨0, 1, 0, 1, 0, 1⟩ 1,
           0, 0, 0⟩ ∧
    (2 ≤ dimX ⟨0, 1, 0, 1, 0, 1⟩ 1 ∧ 2 ≤ dimY ⟨0, 1, 0, 1, 0, 1⟩ 1 ∧
      2 ≤ dimZ ⟨0, 1, 0, 1, 0, 1⟩ 1) :=
  ⟨⟨by norm_num [extentX], by norm_num [extentY], by norm_num [extentZ],
    le_refl 1⟩,
   (resample_formulas ⟨0, 1, 0, 1, 0, 1⟩ 1 (by norm_num [extentX])
      (by norm_num [extentY]) (by norm_num [extentZ]) (le_refl 1)).1,
   (resample_formulas ⟨0, 1, 0, 1, 0, 1⟩ 1 (by norm_num [extentX])
      (by norm_num [extentY]) (by norm_num [extentZ]) (le_refl 1)).2.1⟩

/-! ## C1 — behaviour on degenerate boxes and budgets -/

/-- C1 counterexample: the box with extents (-1, -1, 1) has its x extent
non-positive, yet with target 1 the resampler raises nothing and returns a
(degenerate) grid, because the negative extents cancel in the volume; the
claimed refusal for every box with some extent at most 0 does not hold. -/
theorem resample_degenerate_cex :
    extentX ⟨0, -1, 0, -1, 0, 1⟩ ≤ 0 ∧
    resample_to_uniform_grid ⟨0, -1, 0, -1, 0, 1⟩ 1 =
      .ok ⟨0, 0, 2, 1, 1, 1, 0, 0, 0⟩ := by
  have hex : extentX ⟨0, -1, 0, -1, 0, 1⟩ = -1 := by norm_num [extentX]
  have hey : extentY ⟨0, -1, 0, -1, 0, 1⟩ = -1 := by norm_num [extentY]
  have hez : extentZ ⟨0, -1, 0, -1, 0, 1⟩ = 1 := by norm_num [extentZ]
  have hvol : boxVolume ⟨0, -1, 0, -1, 0, 1⟩ = 1 := by
    rw [boxVolume, hex, hey, hez]
    norm_num
  have hq : boxVolume ⟨0, -1, 0, -1, 0, 1⟩ / 1 = 1 := by
    rw [hvol, div_one]
  have hcs : cell_size ⟨0, -1, 0, -1, 0, 1⟩ 1 = 1 := by
    rw [cell_size, hq]
    exact Real.one_rpow _
  have hdx : dimX ⟨0, -1, 0, -1, 0, 1⟩ 1 = 0 := by
    rw [dimX, hcs, hex, div_one,
      show (-1 : ℝ) = ((-1 : ℤ) : ℝ) by norm_num, Int.ceil_intCast]
    norm_num
  have hdy : dimY ⟨0, -1, 0, -1, 0, 1⟩ 1 = 0 := by
    rw [dimY, hcs, hey, div_one,
      show (-1 : ℝ) = ((-1 : ℤ) : ℝ) by norm_num, Int.ceil_intCast]
    norm_num
  have hdz : dimZ ⟨0, -1, 0, -1, 0, 1⟩ 1 = 2 := by
    rw [dimZ, hcs, hez]
    norm_num
  have hsx : spacingX ⟨0, -1, 0, -1, 0, 1⟩ 1 = 1 := by
    rw [spacingX, hdx, hex]
    norm_num
  have hsy : spacingY ⟨0, -1, 0, -1, 0, 1⟩ 1 = 1 := by
    rw [spacingY, hdy, hey]
    norm_num
  have hsz : spacingZ ⟨0, -1, 0, -1, 0, 1⟩ 1 = 1 := by
    rw [spacingZ, hdz, hez]
    norm_num
  refine ⟨by rw [hex]; norm_num, ?_⟩
  rw [resample_to_uniform_grid, if_neg (by norm_num),
    if_neg (by rw [hq]; norm_num), if_neg (by rw [hcs]; norm_num),
    if_neg (by rw [hdx, hdy, hdz]; norm_num),
    if_neg (by rw [hsx, hsy, hsz]; norm_num)]
  rw [hdx, hdy, hdz, hsx, hsy, hsz]

/-- C1 amended: the resampler raises (and the caller falls back to the
wireframe rendering) whenever the target cell count is zero, the box volume
is zero (some extent zero), or volume and target have opposite signs — in
particular for every non-positive target with positive volume, and for
every negative-volume box with positive target.  A box with a non-positive
extent whose volume is nonetheless positive (an even number of negative
extents), or a negative target together with a negative volume, instead
produces a degenerate grid. -/
theorem resample_degenerate_refuses (b : Bounds) (target : ℝ)
    (h : target = 0 ∨ boxVolume b = 0 ∨ (boxVolume b < 0 ∧ 0 < target) ∨
      (0 < boxVolume b ∧ target < 0)) :
    (∃ e, resample_to_uniform_grid b target = .error e) ∧
    create_volume_actor b target = .fallbackWireframe := by
  have herr : ∃ e, resample_to_uniform_grid b target = .error e := by
    rcases h with h0 | hv | ⟨hv, ht⟩ | ⟨hv, ht⟩
    · exact ⟨_, by rw [resample_to_uniform_grid, if_pos h0]⟩
    · by_cases h0 : target = 0
      · exact ⟨_, by rw [resample_to_uniform_grid, if_pos h0]⟩
      · have hq : boxVolume b / target = 0 := by rw [hv, zero_div]
        have hcs : cell_size b target = 0 := by
          rw [cell_size, hq]
          exact Real.zero_rpow (by norm_num)
        exact ⟨_, by rw [resample_to_uniform_grid, if_neg h0,
          if_neg (by rw [hq]; exact lt_irrefl 0), if_pos hcs]⟩
    · have h0 : target ≠ 0 := ne_of_gt ht
      have hq : boxVolume b / target < 0 := div_neg_of_neg_of_pos hv ht
      exact ⟨_, by rw [resample_to_uniform_grid, if_neg h0, if_pos hq]⟩
    · have h0 : target ≠ 0 := ne_of_lt ht
      have hq : boxVolume b / target < 0 := div_neg_of_pos_of_neg hv ht
      exact ⟨_, by rw [resample_to_uniform_grid, if_neg h0, if_pos hq]⟩
  refine ⟨herr, ?_⟩
  rcases herr with ⟨e, he⟩
  rw [create_volume_actor, he]

/-- C1 amended witness: a flat box (zero z extent) with the default-like
target 1 makes the resampler raise and the caller fall back to the
wireframe actor. -/
theorem resample_degenerate_refuses_witness :
    boxVolume ⟨0, 1, 0, 1, 0, 0⟩ = 0 ∧
    (∃ e, resample_to_uniform_grid ⟨0, 1, 0, 1, 0, 0⟩ 1 = .error e) ∧
    create_volume_actor ⟨0, 1, 0, 1, 0, 0⟩ 1 = .fallbackWireframe := by
  have hv : boxVolume ⟨0, 1, 0, 1, 0, 0⟩ = 0 := by
    norm_num [boxVolume, extentX, extentY, extentZ]
  exact ⟨hv, resample_degenerate_refuses ⟨0, 1, 0, 1, 0, 0⟩ 1
    (Or.inr (Or.inl hv))⟩

/-! ## Catalog lemmas -/

theorem isSome_eq_some_getD (o : Option ℤ) (h : o.isSome = true) :
    o = some (o.getD 0) := by
  cases o
  · simp at h
  · rfl

theorem foldl_insert_fresh (l : List (List Char)) :
    ∀ d : List (ℤ × List Char),
    (∀ f ∈ l, (parse_index f).isSome = true) →
    (l.map fun f => (parse_index f).getD 0).Nodup →
    (∀ f ∈ l, ∀ p ∈ d, p.1 ≠ (parse_index f).getD 0) →
    l.foldl (fun d f =>
      match parse_index f with
      | some n => dict_insert d n f
      | none => d) d = d ++ l.map (fun f => ((parse_index f).getD 0, f)) := by
  induction l with
  | nil =>
    intro d _ _ _
    simp
  | cons f fs ih =>
    intro d hall hnd hdisj
    have hsome := hall f (List.mem_cons_self f fs)
    have hf : parse_index f = some ((parse_index f).getD 0) :=
      isSome_eq_some_getD _ hsome
    rw [List.map_cons] at hnd
    have hnd2 := List.nodup_cons.mp hnd
    rw [List.foldl_cons, List.map_cons]
    have hstep : (match parse_index f with
        | some n => dict_insert d n f
        | none => d) = dict_insert d ((parse_index f).getD 0) f := by
      rw [hf]
      rfl
    rw [hstep]
    have hfresh : (d.any fun p => decide (p.1 = (parse_index f).getD 0)) = false :=
      List.any_eq_false.mpr (fun p hp => by
        simpa using hdisj f (List.mem_cons_self f fs) p hp)
    rw [dict_insert, if_neg (by simp [hfresh])]
    rw [ih (d ++ [((parse_index f).getD 0, f)])
      (fun g hg => hall g (List.mem_cons_of_mem f hg)) hnd2.2 ?_]
    · simp
    · intro g hg p hp
      rcases List.mem_append.mp hp with hp2 | hp2
      · exact hdisj g (List.mem_cons_of_mem f hg) p hp2
      · have hpv : p = ((parse_index f).getD 0, f) := by simpa using hp2
        rw [hpv]
        intro hcontra
        apply hnd2.1
        have hcontra2 : (parse_index f).getD 0 = (parse_index g).getD 0 := hcontra
        rw [hcontra2]
        exact List.mem_map.mpr ⟨g, hg, rfl⟩

theorem dict_get_of_mem (d : List (ℤ × List Char)) (n : ℤ) (f : List Char)
    (hnd : (d.map Prod.fst).Nodup) (hmem : (n, f) ∈ d) :
    dict_get d n = f := by
  induction d with
  | nil => simp at hmem
  | cons p ps ih =>
    rw [List.map_cons, List.nodup_cons] at hnd
    rw [dict_get]
    rcases List.mem_cons.mp hmem with heq | hmem2
    · rw [← heq, List.find?_cons_of_pos _ (by simp)]
      rfl
    · have hne : ¬p.1 = n := by
        intro hpn
        exact hnd.1 (hpn ▸ List.mem_map.mpr ⟨(n, f), hmem2, rfl⟩)
      rw [List.find?_cons_of_neg _ (by simpa using hne)]
      exact ih hnd.2 hmem2

theorem dict_get_mem (d : List (ℤ × List Char)) (n : ℤ)
    (hkey : n ∈ d.map Prod.fst) : (n, dict_get d n) ∈ d := by
  induction d with
  | nil => simp at hkey
  | cons p ps ih =>
    by_cases hp : p.1 = n
    · rw [dict_get, List.find?_cons_of_pos _ (by simpa using hp)]
      refine List.mem_cons.mpr (Or.inl ?_)
      rw [← hp]
      rfl
    · rw [dict_get, List.find?_cons_of_neg _ (by simpa using hp)]
      have hkey2 : n ∈ ps.map Prod.fst := by
        rcases List.mem_map.mp hkey with ⟨q, hq, hqn⟩
        rcases List.mem_cons.mp hq with rfl | hq2
        · exact absurd hqn hp
        · exact List.mem_map.mpr ⟨q, hq2, hqn⟩
      exact List.mem_cons_of_mem p (ih hkey2)

theorem mem_sort_dict (d : List (ℤ × List Char))
    (hnd : (d.map Prod.fst).Nodup) (n : ℤ) (f : List Char) :
    (n, f) ∈ sort_dict d ↔ (n, f) ∈ d := by
  rw [sort_dict]
  constructor
  · intro h
    rcases List.mem_map.mp h with ⟨k, hk, hkeq⟩
    have hk1 : k = n := congrArg Prod.fst hkeq
    have hk2 : dict_get d k = f := congrArg Prod.snd hkeq
    subst hk1
    rw [← hk2]
    exact dict_get_mem d k ((List.perm_insertionSort _ _).mem_iff.mp hk)
  · intro h
    refine List.mem_map.mpr ⟨n, ?_, ?_⟩
    · exact (List.perm_insertionSort _ _).mem_iff.mpr
        (List.mem_map.mpr ⟨(n, f), h, rfl⟩)
    · rw [dict_get_of_mem d n f hnd h]

theorem sort_dict_sorted (d : List (ℤ × List Char)) :
    List.Sorted (fun a b : ℤ × List Char => a.1 ≤ b.1) (sort_dict d) := by
  rw [sort_dict]
  exact List.Pairwise.map _ (fun a b hab => hab)
    (List.sorted_insertionSort (· ≤ ·) (d.map Prod.fst))

theorem mem_kept_pairs (files : List (List Char)) (n : ℤ) (f : List Char)
    (hall : ∀ g ∈ files, keep_file g = true → (parse_index g).isSome = true) :
    ((n, f) ∈ (files.filter keep_file).map
        (fun g => ((parse_index g).getD 0, g))) ↔
      (f ∈ files ∧ keep_file f = true ∧ parse_index f = some n) := by
  constructor
  · intro h
    rcases List.mem_map.mp h with ⟨g, hg, hgeq⟩
    have h2 : g = f := congrArg Prod.snd hgeq
    subst h2
    have h1 : (parse_index g).getD 0 = n := congrArg Prod.fst hgeq
    have hmem := List.mem_filter.mp hg
    refine ⟨hmem.1, hmem.2, ?_⟩
    rw [isSome_eq_some_getD _ (hall g hmem.1 hmem.2), h1]
  · rintro ⟨hmem, hkeep, hparse⟩
    refine List.mem_map.mpr ⟨f, List.mem_filter.mpr ⟨hmem, hkeep⟩, ?_⟩
    rw [hparse]
    rfl

theorem kept_pidx_nodup (files : List (List Char)) (hnodup : files.Nodup)
    (hall : ∀ f ∈ files, keep_file f = true → (parse_index f).isSome = true)
    (hinj : ∀ f ∈ files, ∀ g ∈ files, keep_file f = true → keep_file g = true →
      parse_index f = parse_index g → f = g) :
    ((files.filter keep_file).map fun g => (parse_index g).getD 0).Nodup := by
  apply List.Nodup.map_on
  · intro x hx y hy hxy
    have hxm := List.mem_filter.mp hx
    have hym := List.mem_filter.mp hy
    apply hinj x hxm.1 y hym.1 hxm.2 hym.2
    rw [isSome_eq_some_getD _ (hall x hxm.1 hxm.2),
      isSome_eq_some_getD _ (hall y hym.1 hym.2), hxy]
  · exact hnodup.filter _

/-! ## C9 — file discovery and numeric ordering -/

/-- C9: over a duplicate-free directory listing in which every file with
the dcinv prefix and .vtk extension carries a parseable index token
(between the last underscore and the following dot) and those indices are
pairwise distinct, the catalog succeeds, contains exactly the
(index, file) pairs of the kept files, and is ordered by numeric index
value. -/
theorem load_data_location_spec (files : List (List Char))
    (hnodup : files.Nodup)
    (hall : ∀ f ∈ files, keep_file f = true → (parse_index f).isSome = true)
    (hinj : ∀ f ∈ files, ∀ g ∈ files, keep_file f = true → keep_file g = true →
      parse_index f = parse_index g → f = g) :
    ∃ l, load_data_location files = some l ∧
      List.Sorted (fun a b : ℤ × List Char => a.1 ≤ b.1) l ∧
      ∀ n f, ((n, f) ∈ l ↔
        (f ∈ files ∧ keep_file f = true ∧ parse_index f = some n)) := by
  have hkall : ∀ f ∈ files.filter keep_file, (parse_index f).isSome = true := by
    intro f hf
    have h := List.mem_filter.mp hf
    exact hall f h.1 h.2
  have hguard : ((files.filter keep_file).all
      fun f => (parse_index f).isSome) = true :=
    List.all_eq_true.mpr hkall
  have hpidxnd := kept_pidx_nodup files hnodup hall hinj
  have hdict : vtk_files_dict (files.filter keep_file) =
      (files.filter keep_file).map (fun g => ((parse_index g).getD 0, g)) := by
    rw [vtk_files_dict]
    have h := foldl_insert_fresh (files.filter keep_file) [] hkall hpidxnd
      (by intro g hg p hp; simp at hp)
    simpa using h
  have hkeysnd : (((files.filter keep_file).map
      (fun g => ((parse_index g).getD 0, g))).map Prod.fst).Nodup := by
    rw [List.map_map]
    exact hpidxnd
  refine ⟨sort_dict (vtk_files_dict (files.filter keep_file)), ?_, ?_, ?_⟩
  · rw [load_data_location, if_pos hguard]
  · exact sort_dict_sorted _
  · intro n f
    rw [hdict]
    exact Iff.trans (mem_sort_dict _ hkeysnd n f) (mem_kept_pairs files n f hall)

/-- C9 witness: the three files dcinv_1.vtk, dcinv_10.vtk, dcinv_2.vtk
catalog to the numerically ordered indices [1, 2, 10], not the lexical
order [1, 10, 2]. -/
theorem load_data_location_spec_witness :
    ((["dcinv_1.vtk".toList, "dcinv_10.vtk".toList, "dcinv_2.vtk".toList] :
        List (List Char)).Nodup) ∧
    load_data_location
        ["dcinv_1.vtk".toList, "dcinv_10.vtk".toList, "dcinv_2.vtk".toList] =
      some [(1, "dcinv_1.vtk".toList), (2, "dcinv_2.vtk".toList),
            (10, "dcinv_10.vtk".toList)] ∧
    ∃ l, load_data_location
        ["dcinv_1.vtk".toList, "dcinv_10.vtk".toList, "dcinv_2.vtk".toList] =
        some l ∧
      List.Sorted (fun a b : ℤ × List Char => a.1 ≤ b.1) l :=
  ⟨by decide, by decide, by
    obtain ⟨l, h1, h2, _⟩ := load_data_location_spec
      ["dcinv_1.vtk".toList, "dcinv_10.vtk".toList, "dcinv_2.vtk".toList]
      (by decide) (by decide) (by decide)
    exact ⟨l, h1, h2⟩⟩

end DamViz
